import Mathlib

/-!
Verification of the c-yield generator library: a shallow embedding of the
stackful (`generator.h`) and threaded (`generator_pthread.h`) backends and of
the demo programs (`fib_pthread.c`, `bst.c`, `bst_pthread.c`), with theorems
settling the specification's claims.

Modelling conventions.  Machine integers (`int64_t`) are `Int` with explicit
wrapping where the source can overflow.  A generator's suspended user-function
continuation is abstracted by the list of values it will still yield
(`pending`): one `generator_next` either consumes the head of that list via the
source's `yield` state update, or, when the list is empty, takes the
trampoline's finish path.  Both backends enforce strict alternation (a single
active side), so this sequential abstraction is exact for the value/state
behaviour the claims speak about.  Teardown claims, which live below that
abstraction, get their own models: an allocation-level model of
`generator_destroy` and an interleaving transition system for the threaded
backend's destroy-before-start race.
-/

namespace CYield

/-- The generator state enum (`generator_state_t`, both headers):
GEN_RUNNING, GEN_SUSPENDED, GEN_FINISHED. -/
inductive GState where
| Running
| Suspended
| Finished
deriving DecidableEq, Repr

/-- `DEFAULT_STACK_SIZE` (generator.h line 13): 16 KB. -/
def DEFAULT_STACK_SIZE : Nat := 16 * 1024

namespace Stackful

/-- The stackful `struct generator` (generator.h lines 30-39), restricted to
the fields the claims are about: `yielded_value`, `state`, and the suspended
continuation abstracted as the list `pending` of values the user function will
still yield.  The machine contexts and the stack pointer are not value-relevant
and are omitted. -/
structure Gen where
  yielded_value : Int
  state : GState
  pending : List Int
deriving DecidableEq, Repr

/-- `yield` (generator.h lines 169-184).  The null-handle case is covered by
the caller passing a live `Gen`.  If `state != GEN_RUNNING` an error is
reported (`fprintf`, modelled by the returned `Bool`) and the function returns
with no mutation; otherwise it stores the value, sets GEN_SUSPENDED and swaps
back to the caller. -/
def yield (self : Gen) (value : Int) : Gen × Bool :=
  if self.state ≠ GState.Running then
    (self, true)
  else
    ({ self with yielded_value := value, state := GState.Suspended }, false)

/-- `generator_next` (generator.h lines 129-157) for a non-null handle
(the null case is `generator_next_c` below).  If already GEN_FINISHED it
returns the last value with done = true (lines 137-141).  Otherwise it sets
GEN_RUNNING (line 143) and swaps into the generator, which runs until its next
`yield` (head of `pending`) or until the user function returns, in which case
the trampoline `generator_entry_point` (lines 46-63) sets GEN_FINISHED.  The
returned flag is `state == GEN_FINISHED` (lines 152-156). -/
def generator_next (gen : Gen) : Gen × Int × Bool :=
  if gen.state = GState.Finished then
    (gen, gen.yielded_value, true)
  else
    let g0 : Gen := { gen with state := GState.Running }
    match g0.pending with
    | v :: rest =>
      let g1 := (yield { g0 with pending := rest } v).1
      (g1, g1.yielded_value, decide (g1.state = GState.Finished))
    | [] =>
      let g1 : Gen := { g0 with state := GState.Finished }
      (g1, g1.yielded_value, decide (g1.state = GState.Finished))

/-- The generator as returned by `generator_create` (generator.h lines 98-100):
state GEN_SUSPENDED, yielded_value 0, the user function still to run all of
its yields. -/
def mkGen (yields : List Int) : Gen :=
  { yielded_value := 0, state := GState.Suspended, pending := yields }

/-- Repeated `generator_next` calls, collecting each call's
(value, done) output. -/
def runNexts (gen : Gen) : Nat → List (Int × Bool)
  | 0 => []
  | n + 1 =>
    let r := generator_next gen
    (r.2.1, r.2.2) :: runNexts r.1 n

/-- The state after one `generator_next` call. -/
def stepGen (gen : Gen) : Gen := (generator_next gen).1

end Stackful

/-- The values among `generator_next` outputs that were reported with
finished == false. -/
def yieldedSeq (outs : List (Int × Bool)) : List Int :=
  (outs.filter fun p => !p.2).map Prod.fst

namespace Pthread

/-- The threaded `struct generator` (generator_pthread.h lines 31-43),
restricted to the value-relevant fields: `yielded_value`, `state`,
`value_ready`, `started`, and the worker-thread continuation abstracted as the
list `pending` of values the user function will still yield.  The thread id,
mutex and condition variables carry no values and are omitted here (they are
modelled explicitly in the `DestroyRace` transition system below). -/
structure PGen where
  yielded_value : Int
  state : GState
  value_ready : Bool
  started : Bool
  pending : List Int
deriving DecidableEq, Repr

/-- `yield` (generator_pthread.h lines 265-298) for a non-null handle.
Unlike the stackful backend, this `yield` checks nothing beyond the null
handle: under the mutex it stores the value, sets `value_ready`, sets
GEN_SUSPENDED (lines 271-273), signals the caller and waits to be resumed.
The returned `Bool` reports whether an error was raised: it never is for a
non-null handle. -/
def yield (self : PGen) (value : Int) : PGen × Bool :=
  ({ self with
      yielded_value := value
      value_ready := true
      state := GState.Suspended }, false)

/-- `generator_next` (generator_pthread.h lines 164-217) for a non-null
handle.  Under the mutex: if already GEN_FINISHED, return the last value with
done = true (lines 176-179).  Otherwise set GEN_RUNNING and clear
`value_ready` (lines 182-183), signal the worker, and wait until it either
yields (head of `pending`, via `yield` above) or finishes
(`generator_thread_entry` finalization, lines 82-87, which sets GEN_FINISHED
and `value_ready`).  The first such call also lets the worker mark `started`
(line 52). -/
def generator_next (gen : PGen) : PGen × Int × Bool :=
  if gen.state = GState.Finished then
    (gen, gen.yielded_value, true)
  else
    let g0 : PGen :=
      { gen with state := GState.Running, value_ready := false, started := true }
    match g0.pending with
    | v :: rest =>
      let g1 := (yield { g0 with pending := rest } v).1
      (g1, g1.yielded_value, decide (g1.state = GState.Finished))
    | [] =>
      let g1 : PGen := { g0 with state := GState.Finished, value_ready := true }
      (g1, g1.yielded_value, decide (g1.state = GState.Finished))

/-- The generator as returned by `generator_create`
(generator_pthread.h lines 114-119): GEN_SUSPENDED, value 0, not started,
no value ready, the user function still to run all of its yields. -/
def mkGen (yields : List Int) : PGen :=
  { yielded_value := 0, state := GState.Suspended, value_ready := false,
    started := false, pending := yields }

/-- Repeated `generator_next` calls, collecting each call's
(value, done) output. -/
def runNexts (gen : PGen) : Nat → List (Int × Bool)
  | 0 => []
  | n + 1 =>
    let r := generator_next gen
    (r.2.1, r.2.2) :: runNexts r.1 n

/-- The state after one `generator_next` call. -/
def stepGen (gen : PGen) : PGen := (generator_next gen).1

end Pthread

/-- `generator_next` with its null-handle guard (generator.h lines 131-135):
`gen` is an optional handle (`none` = NULL) and `donePtr` records whether the
caller passed a non-null `done` output pointer; the third component is the
value written through that pointer (`none` when no pointer was given).  On a
null handle: `*done = true` when the pointer is non-null, return 0, touch no
state. -/
def Stackful.generator_next_c (gen : Option Stackful.Gen) (donePtr : Bool) :
    Option Stackful.Gen × Int × Option Bool :=
  match gen with
  | none => (none, 0, if donePtr then some true else none)
  | some g =>
    let r := Stackful.generator_next g
    (some r.1, r.2.1, if donePtr then some r.2.2 else none)

/-- `generator_next` with its null-handle guard
(generator_pthread.h lines 165-168); same reading as
`Stackful.generator_next_c`. -/
def Pthread.generator_next_c (gen : Option Pthread.PGen) (donePtr : Bool) :
    Option Pthread.PGen × Int × Option Bool :=
  match gen with
  | none => (none, 0, if donePtr then some true else none)
  | some g =>
    let r := Pthread.generator_next g
    (some r.1, r.2.1, if donePtr then some r.2.2 else none)

/-- Binary trees with `int32_t` keys (`struct TreeNode` in bst.c lines 9-13
and bst_pthread.c lines 10-14): a node holds `data` and `left`/`right`
subtrees; `nil` is the NULL pointer. -/
inductive Tree where
| nil
| node (data : Int) (left : Tree) (right : Tree)
deriving DecidableEq, Repr

namespace Bst

/-- `inorder_recursive_helper` (bst.c lines 42-67) as the sequence of values
it yields when the generator is driven normally: NULL returns nothing,
otherwise recurse left, yield `node->data`, recurse right.  The state checks
at lines 52 and 62 observe GEN_RUNNING on every normal resumption
(`generator_next` sets GEN_RUNNING at line 143 of generator.h before each
resume), so they never cut the traversal short unless the generator is
destroyed mid-run. -/
def inorder_recursive_helper : Tree → List Int
  | Tree.nil => []
  | Tree.node d l r =>
    inorder_recursive_helper l ++ d :: inorder_recursive_helper r

/-- `bst_inorder_recursive_generator` (bst.c lines 71-80): runs the helper on
the tree root passed through `user_data`. -/
def bst_inorder_recursive_generator (root : Tree) : List Int :=
  inorder_recursive_helper root

end Bst

namespace BstPthread

/-- `inorder_recursive_helper` (bst_pthread.c lines 41-65), same structure as
the stackful version; its checks at lines 49-53 and 58-62 test
`state == GEN_FINISHED` under the mutex and observe a non-finished state on
every normal resumption, so they never cut the traversal short unless the
generator is destroyed mid-run. -/
def inorder_recursive_helper : Tree → List Int
  | Tree.nil => []
  | Tree.node d l r =>
    inorder_recursive_helper l ++ d :: inorder_recursive_helper r

/-- `bst_inorder_recursive_generator` (bst_pthread.c lines 68-72). -/
def bst_inorder_recursive_generator (root : Tree) : List Int :=
  inorder_recursive_helper root

end BstPthread

/-- The spec's reference point for the refinement claim: a direct,
non-generator recursive in-order traversal ("recursively descends a binary
tree, yielding each node's key in-order"). -/
def inorderDirect : Tree → List Int
  | Tree.nil => []
  | Tree.node d l r => inorderDirect l ++ d :: inorderDirect r

/-- Signed 64-bit wrap-around: `int64_t` addition as the hardware computes
it (two's complement). -/
def wrap64 (n : Int) : Int := (n + 2 ^ 63) % 2 ^ 64 - 2 ^ 63

/-- The loop body of `fib_generator_func` (fib_pthread.c lines 9-34) as the
sequence of values it yields: up to 10 iterations, each yields `a` and then
updates `(a, b) := (b, a + b)` with `int64_t` arithmetic, breaking out of the
loop when the freshly computed `a` or `b` is negative (the overflow check at
lines 26-29). -/
def fibLoopYields : Nat → Int → Int → List Int
  | 0, _, _ => []
  | i + 1, a, b =>
    let next_a := b
    let next_b := wrap64 (a + b)
    a :: (if next_a < 0 ∨ next_b < 0 then [] else fibLoopYields i next_a next_b)

/-- `fib_generator_func` (fib_pthread.c lines 9-34): seeds `a = 1`, `b = 1`
and runs the 10-iteration loop. -/
def fib_generator_func : List Int := fibLoopYields 10 1 1

/-- The comparison loop of `check_bst_property` (bst.c lines 124-154):
advance B to the current value, advance A to the next value; if either
finished, all comparisons passed; if `value_a <= value_b` the property fails
at the adjacent pair `(value_b, value_a)` (the failure printf at
lines 140-143); otherwise increment `step`, give up with false once
`step > 100` (the safety break at lines 149-153), and loop.  The `fuel`
argument only makes the recursion structural; the safety break fires after at
most 101 comparisons, so any `fuel ≥ 102` is never exhausted.  The second
component reports the failing adjacent pair, `none` when no comparison
failed. -/
def checkLoop (genA genB : Stackful.Gen) (step : Nat) :
    Nat → Bool × Option (Int × Int)
  | 0 => (false, none)
  | fuel + 1 =>
    let rb := Stackful.generator_next genB
    let ra := Stackful.generator_next genA
    if rb.2.2 || ra.2.2 then (true, none)
    else if ra.2.1 ≤ rb.2.1 then (false, some (rb.2.1, ra.2.1))
    else if step + 1 > 100 then (false, none)
    else checkLoop ra.1 rb.1 (step + 1) fuel

/-- `check_bst_property` (bst.c lines 85-161) together with the adjacent pair
at which it failed, if any: NULL root passes (lines 88-91); otherwise create
two generators over the same tree (lines 96-97), advance A once
(lines 114-121, a tree with one node passes immediately), then run the
comparison loop. -/
def check_bst_run (root : Tree) : Bool × Option (Int × Int) :=
  match root with
  | Tree.nil => (true, none)
  | Tree.node _ _ _ =>
    let genA := Stackful.mkGen (Bst.bst_inorder_recursive_generator root)
    let genB := Stackful.mkGen (Bst.bst_inorder_recursive_generator root)
    let ra := Stackful.generator_next genA
    if ra.2.2 then (true, none)
    else checkLoop ra.1 genB 0 102

/-- The boolean result of `check_bst_property` (bst.c lines 85-161). -/
def check_bst_property (root : Tree) : Bool := (check_bst_run root).1

/-- The valid BST built in `main` (bst.c lines 166-169):
50 with left 30 (right child 40) and right 70. -/
def validTree : Tree :=
  Tree.node 50 (Tree.node 30 Tree.nil (Tree.node 40 Tree.nil Tree.nil))
    (Tree.node 70 Tree.nil Tree.nil)

/-- The invalid tree built in `main` (bst.c lines 178-181):
50 with left 30 (right child 60) and right 70. -/
def invalidTree : Tree :=
  Tree.node 50 (Tree.node 30 Tree.nil (Tree.node 60 Tree.nil Tree.nil))
    (Tree.node 70 Tree.nil Tree.nil)

/-- Every key of the tree is strictly below the bound. -/
def allLt : Tree → Int → Bool
  | Tree.nil, _ => true
  | Tree.node d l r, bound => decide (d < bound) && allLt l bound && allLt r bound

/-- Every key of the tree is strictly above the bound. -/
def allGt : Tree → Int → Bool
  | Tree.nil, _ => true
  | Tree.node d l r, bound => decide (bound < d) && allGt l bound && allGt r bound

/-- The spec's notion of a valid binary search tree: at every node, all keys
of the left subtree are strictly below the node's key and all keys of the
right subtree strictly above it. -/
def isBST : Tree → Bool
  | Tree.nil => true
  | Tree.node d l r => allLt l d && allGt r d && isBST l && isBST r

/-- `generator_create` (generator.h lines 76-117), restricted to its argument
handling: with a NULL function it fails (lines 79-82); otherwise the stack
size actually allocated is `stack_size` when positive, else
DEFAULT_STACK_SIZE (line 90).  `size_t` is unsigned, so `stack_size` is a
`Nat`; no other validation of the size is performed.  `malloc`/`getcontext`
failures (which also make the call return NULL) are environment
nondeterminism and are elided: this is the successful-allocation path.  The
result is the allocated stack size, `none` when creation is refused. -/
def generator_create_stackSize (funcPresent : Bool) (stack_size : Nat) :
    Option Nat :=
  if !funcPresent then none
  else some (if stack_size > 0 then stack_size else DEFAULT_STACK_SIZE)

namespace Destroy

/-- The heap around one stackful generator, as `generator_destroy`
(generator.h lines 192-200) sees it: the record's field contents `gen`,
whether the record and its stack are still allocated, and whether undefined
behaviour (a free of an already-freed pointer, or a read through one) has
occurred. -/
structure Mem where
  gen : Stackful.Gen
  genAllocated : Bool
  stackAllocated : Bool
  fault : Bool
deriving DecidableEq, Repr

/-- `generator_destroy` (generator.h lines 192-200) at the allocation level.
`handleNull` says whether the call received NULL (guarded at line 194, no-op).
On a non-NULL handle the function reads `gen->stack` and frees it, then frees
`gen` — it never consults `gen->state`.  If the record behind the handle was
already freed, reading `gen->stack` and freeing through it is undefined
behaviour: `fault`. -/
def generator_destroy (handleNull : Bool) (m : Mem) : Mem :=
  if handleNull then m
  else if !m.genAllocated then { m with fault := true }
  else { m with genAllocated := false, stackAllocated := false }

end Destroy

namespace DestroyRace

/-- Program counter of the worker thread executing `generator_thread_entry`
(generator_pthread.h lines 46-91). -/
inductive WLoc where
| wStart
| wWait
| wUser
| wFinal
| wExited
deriving DecidableEq, Repr

/-- Program counter of the caller thread executing `generator_destroy`
(generator_pthread.h lines 224-256). -/
inductive MLoc where
| mStart
| mSignal
| mJoin
| mFree
| mDone
deriving DecidableEq, Repr

/-- The whole configuration of the threaded backend's destroy-before-start
scenario: `generator_create` has spawned the worker thread (line 142) and the
caller immediately calls `generator_destroy`, with `generator_next` never
called.  Shared fields are those of `struct generator`; `allocated` is
whether `free(gen)` has not yet run; `sigYield` records a pending
`cond_yield` signal; `fault` records any touch of the freed record (lock of a
destroyed mutex, read of freed memory).  Mutex-protected regions that contain
no wait are taken as single atomic steps, which is sound because the mutex
serializes them. -/
structure Config where
  wLoc : WLoc
  mLoc : MLoc
  started : Bool
  state : GState
  value_ready : Bool
  needsJoin : Bool
  allocated : Bool
  sigYield : Bool
  fault : Bool
deriving DecidableEq, Repr

/-- Which thread takes the next step. -/
inductive Tid where
| worker
| caller
deriving DecidableEq, Repr

/-- One step of the worker thread (`generator_thread_entry`).
At `wStart` it executes lines 50-67: lock the mutex, set `started`, and
either enter the initial `cond_yield` wait (while `state == GEN_SUSPENDED`)
or fall through, setting GEN_RUNNING unless already GEN_FINISHED, and unlock.
At `wWait` it can proceed once signalled (lines 56-62): if GEN_FINISHED it
unlocks and returns; if still GEN_SUSPENDED it waits again; otherwise it
falls out of the loop to lines 64-67.  `wUser` abstracts the user function
call (line 75); `wFinal` is the finalization block (lines 82-88).  Any access
after `free(gen)` is a fault. -/
def wstep (c : Config) : Config :=
  match c.wLoc with
  | WLoc.wStart =>
    if !c.allocated then { c with fault := true }
    else
      let c1 := { c with started := true }
      if c1.state = GState.Suspended then { c1 with wLoc := WLoc.wWait }
      else if c1.state = GState.Finished then { c1 with wLoc := WLoc.wFinal }
      else { c1 with state := GState.Running, wLoc := WLoc.wUser }
  | WLoc.wWait =>
    if !c.allocated then { c with fault := true }
    else if !c.sigYield then c
    else if c.state = GState.Finished then { c with wLoc := WLoc.wExited }
    else if c.state = GState.Suspended then c
    else { c with state := GState.Running, wLoc := WLoc.wUser }
  | WLoc.wUser =>
    -- the user function runs and returns (not reached in this scenario)
    { c with wLoc := WLoc.wFinal }
  | WLoc.wFinal =>
    if !c.allocated then { c with fault := true }
    else { c with state := GState.Finished, value_ready := true,
                  wLoc := WLoc.wExited }
  | WLoc.wExited => c

/-- One step of the caller thread (`generator_destroy`).
`mStart` is the mutex-protected block at lines 229-233: compute
`needs_join = started && state != GEN_FINISHED`, set GEN_FINISHED, set
`value_ready`.  `mSignal` (lines 235-241) signals both condition variables
when a join is needed.  `mJoin` is `pthread_join` (line 243), which blocks
until the worker has exited.  `mFree` (lines 251-254) destroys the
synchronization primitives and frees the record. -/
def mstep (c : Config) : Config :=
  match c.mLoc with
  | MLoc.mStart =>
    { c with needsJoin := c.started && decide (c.state ≠ GState.Finished),
             state := GState.Finished, value_ready := true,
             mLoc := MLoc.mSignal }
  | MLoc.mSignal =>
    if c.needsJoin then { c with sigYield := true, mLoc := MLoc.mJoin }
    else { c with mLoc := MLoc.mFree }
  | MLoc.mJoin =>
    if c.wLoc = WLoc.wExited then { c with mLoc := MLoc.mFree } else c
  | MLoc.mFree =>
    { c with allocated := false, mLoc := MLoc.mDone }
  | MLoc.mDone => c

/-- One interleaving step. -/
def step (c : Config) : Tid → Config
  | Tid.worker => wstep c
  | Tid.caller => mstep c

/-- Run a schedule (the OS's choice of which thread runs when). -/
def exec (c : Config) (sched : List Tid) : Config := sched.foldl step c

/-- Right after `generator_create` returns: worker spawned but not yet run,
destroy about to begin, fields as initialized at lines 114-119. -/
def init : Config :=
  { wLoc := WLoc.wStart, mLoc := MLoc.mStart, started := false,
    state := GState.Suspended, value_ready := false, needsJoin := false,
    allocated := true, sigYield := false, fault := false }

/-- The schedule in which `generator_destroy` runs to completion before the
newly spawned worker thread executes its first instruction. -/
def badSchedule : List Tid :=
  [Tid.caller, Tid.caller, Tid.caller, Tid.caller]

end DestroyRace

/-! ## Helper lemmas -/

theorem stackful_next_finished (gen : Stackful.Gen)
    (h : gen.state = GState.Finished) :
    Stackful.generator_next gen = (gen, gen.yielded_value, true) := by
  simp [Stackful.generator_next, h]

theorem stackful_next_cons (yv v : Int) (st : GState)
    (rest : List Int) (h : st ≠ GState.Finished) :
    Stackful.generator_next ⟨yv, st, v :: rest⟩ =
      (⟨v, GState.Suspended, rest⟩, v, false) := by
  simp [Stackful.generator_next, h, Stackful.yield]

theorem stackful_next_nil (yv : Int) (st : GState)
    (h : st ≠ GState.Finished) :
    Stackful.generator_next ⟨yv, st, []⟩ =
      (⟨yv, GState.Finished, []⟩, yv, true) := by
  simp [Stackful.generator_next, h]

theorem stackful_yieldedSeq_runNexts_finished (n : Nat) (gen : Stackful.Gen)
    (h : gen.state = GState.Finished) :
    yieldedSeq (Stackful.runNexts gen n) = [] := by
  induction n generalizing gen with
  | zero => simp [Stackful.runNexts, yieldedSeq]
  | succ n ih =>
    simp only [Stackful.runNexts, stackful_next_finished gen h]
    simpa [yieldedSeq] using ih gen h

/-- Driving any not-yet-finished stackful generator `n` steps returns, among
the not-finished outputs, exactly the first `n` pending yields, in order. -/
theorem stackful_yieldedSeq_runNexts (n : Nat) (gen : Stackful.Gen)
    (h : gen.state ≠ GState.Finished) :
    yieldedSeq (Stackful.runNexts gen n) = gen.pending.take n := by
  induction n generalizing gen with
  | zero => simp [Stackful.runNexts, yieldedSeq]
  | succ n ih =>
    obtain ⟨yv, st, pend⟩ := gen
    match pend with
    | [] =>
      simp only [Stackful.runNexts, stackful_next_nil yv st h]
      simpa [yieldedSeq] using
        stackful_yieldedSeq_runNexts_finished n ⟨yv, GState.Finished, []⟩ rfl
    | v :: rest =>
      simp only [Stackful.runNexts, stackful_next_cons yv v st rest h]
      have := ih ⟨v, GState.Suspended, rest⟩ (by simp)
      simpa [yieldedSeq] using this

theorem pthread_next_finished (gen : Pthread.PGen)
    (h : gen.state = GState.Finished) :
    Pthread.generator_next gen = (gen, gen.yielded_value, true) := by
  simp [Pthread.generator_next, h]

theorem pthread_next_cons (yv v : Int) (st : GState) (vr sd : Bool)
    (rest : List Int) (h : st ≠ GState.Finished) :
    Pthread.generator_next ⟨yv, st, vr, sd, v :: rest⟩ =
      (⟨v, GState.Suspended, true, true, rest⟩, v, false) := by
  simp [Pthread.generator_next, h, Pthread.yield]

theorem pthread_next_nil (yv : Int) (st : GState) (vr sd : Bool)
    (h : st ≠ GState.Finished) :
    Pthread.generator_next ⟨yv, st, vr, sd, []⟩ =
      (⟨yv, GState.Finished, true, true, []⟩, yv, true) := by
  simp [Pthread.generator_next, h]

theorem pthread_yieldedSeq_runNexts_finished (n : Nat) (gen : Pthread.PGen)
    (h : gen.state = GState.Finished) :
    yieldedSeq (Pthread.runNexts gen n) = [] := by
  induction n generalizing gen with
  | zero => simp [Pthread.runNexts, yieldedSeq]
  | succ n ih =>
    simp only [Pthread.runNexts, pthread_next_finished gen h]
    simpa [yieldedSeq] using ih gen h

/-- Threaded analogue of `stackful_yieldedSeq_runNexts`. -/
theorem pthread_yieldedSeq_runNexts (n : Nat) (gen : Pthread.PGen)
    (h : gen.state ≠ GState.Finished) :
    yieldedSeq (Pthread.runNexts gen n) = gen.pending.take n := by
  induction n generalizing gen with
  | zero => simp [Pthread.runNexts, yieldedSeq]
  | succ n ih =>
    obtain ⟨yv, st, vr, sd, pend⟩ := gen
    match pend with
    | [] =>
      simp only [Pthread.runNexts, pthread_next_nil yv st vr sd h]
      simpa [yieldedSeq] using
        pthread_yieldedSeq_runNexts_finished n
          ⟨yv, GState.Finished, true, true, []⟩ rfl
    | v :: rest =>
      simp only [Pthread.runNexts,
        pthread_next_cons yv v st vr sd rest h]
      have := ih ⟨v, GState.Suspended, true, true, rest⟩ (by simp)
      simpa [yieldedSeq] using this

theorem bst_helper_eq_inorderDirect (t : Tree) :
    Bst.inorder_recursive_helper t = inorderDirect t := by
  induction t with
  | nil => rfl
  | node d l r ihl ihr =>
    simp [Bst.inorder_recursive_helper, inorderDirect, ihl, ihr]

theorem bstPthread_helper_eq_inorderDirect (t : Tree) :
    BstPthread.inorder_recursive_helper t = inorderDirect t := by
  induction t with
  | nil => rfl
  | node d l r ihl ihr =>
    simp [BstPthread.inorder_recursive_helper, inorderDirect, ihl, ihr]

theorem allLt_iff (t : Tree) (bound : Int) :
    allLt t bound = true ↔ ∀ x ∈ inorderDirect t, x < bound := by
  induction t with
  | nil => simp [allLt, inorderDirect]
  | node d l r ihl ihr =>
    simp only [allLt, inorderDirect, Bool.and_eq_true, decide_eq_true_eq,
      ihl, ihr, List.mem_append, List.mem_cons]
    constructor
    · rintro ⟨⟨hd, hl⟩, hr⟩ x (hx | rfl | hx)
      · exact hl x hx
      · exact hd
      · exact hr x hx
    · intro h
      exact ⟨⟨h d (Or.inr (Or.inl rfl)), fun x hx => h x (Or.inl hx)⟩,
        fun x hx => h x (Or.inr (Or.inr hx))⟩

theorem allGt_iff (t : Tree) (bound : Int) :
    allGt t bound = true ↔ ∀ x ∈ inorderDirect t, bound < x := by
  induction t with
  | nil => simp [allGt, inorderDirect]
  | node d l r ihl ihr =>
    simp only [allGt, inorderDirect, Bool.and_eq_true, decide_eq_true_eq,
      ihl, ihr, List.mem_append, List.mem_cons]
    constructor
    · rintro ⟨⟨hd, hl⟩, hr⟩ x (hx | rfl | hx)
      · exact hl x hx
      · exact hd
      · exact hr x hx
    · intro h
      exact ⟨⟨h d (Or.inr (Or.inl rfl)), fun x hx => h x (Or.inl hx)⟩,
        fun x hx => h x (Or.inr (Or.inr hx))⟩

theorem isBST_iff_pairwise (t : Tree) :
    isBST t = true ↔ (inorderDirect t).Pairwise (· < ·) := by
  induction t with
  | nil => simp [isBST, inorderDirect]
  | node d l r ihl ihr =>
    simp only [isBST, inorderDirect, Bool.and_eq_true, ihl, ihr,
      allLt_iff, allGt_iff, List.pairwise_append, List.pairwise_cons,
      List.mem_cons]
    constructor
    · rintro ⟨⟨⟨hlt, hgt⟩, hl⟩, hr⟩
      refine ⟨hl, ⟨hgt, hr⟩, ?_⟩
      rintro a ha b (rfl | hb)
      · exact hlt a ha
      · exact lt_trans (hlt a ha) (hgt b hb)
    · rintro ⟨hl, ⟨hgt, hr⟩, hcross⟩
      exact ⟨⟨⟨fun a ha => hcross a ha d (Or.inl rfl), hgt⟩, hl⟩, hr⟩

/-! ## Claims -/

/-- Claim C1: for every generator and every sequence of yields performed by
the user function, the values returned by `generator_next` calls that report
finished == false are exactly the yielded values, in order — each call
advances by exactly one yield-step, none is returned twice or skipped.  Holds
in both backends: driving a fresh generator over yield sequence `vs` for any
number `n` of `generator_next` calls returns exactly the first `n` yields. -/
theorem c1_next_returns_each_yield_once_in_order (vs : List Int) (n : Nat) :
    yieldedSeq (Stackful.runNexts (Stackful.mkGen vs) n) = vs.take n ∧
    yieldedSeq (Pthread.runNexts (Pthread.mkGen vs) n) = vs.take n := by
  constructor
  · simpa [Stackful.mkGen] using
      stackful_yieldedSeq_runNexts n (Stackful.mkGen vs) (by simp [Stackful.mkGen])
  · simpa [Pthread.mkGen] using
      pthread_yieldedSeq_runNexts n (Pthread.mkGen vs) (by simp [Pthread.mkGen])

/-- Claim C2 (amended): only the stackful backend detects `yield` outside the
Running state.  Stackful `yield` with `state != GEN_RUNNING` reports an error
and returns with the generator — state and yielded_value — unchanged.  The
threaded backend's `yield` performs no such check on a non-null handle: it
reports no error, stores the value, sets `value_ready`, and moves the state
to GEN_SUSPENDED regardless of the state it was called in. -/
theorem c2_yield_state_check_stackful_only :
    (∀ (g : Stackful.Gen) (v : Int), g.state ≠ GState.Running →
      Stackful.yield g v = (g, true)) ∧
    (∀ (g : Pthread.PGen) (v : Int),
      Pthread.yield g v =
        ({ g with yielded_value := v, value_ready := true,
                  state := GState.Suspended }, false)) := by
  constructor
  · intro g v h
    simp [Stackful.yield, h]
  · intro g v
    rfl

/-- Witness for C2's amended theorem at a concrete non-Running generator. -/
theorem c2_yield_state_check_stackful_only_witness :
    Stackful.yield ⟨5, GState.Suspended, []⟩ 9 =
      (⟨5, GState.Suspended, []⟩, true) :=
  c2_yield_state_check_stackful_only.1 ⟨5, GState.Suspended, []⟩ 9 (by decide)

/-- Claim C2, counterexample to the claim as stated: in the threaded backend,
`yield` on a generator whose state is GEN_SUSPENDED (not Running) is silently
accepted — no error is reported, the value 42 overwrites the previous
yielded_value 7, and the call continues into its wait. -/
theorem c2_counterexample_threaded_yield_unchecked :
    (⟨7, GState.Suspended, false, true, []⟩ : Pthread.PGen).state ≠
        GState.Running ∧
    Pthread.yield ⟨7, GState.Suspended, false, true, []⟩ 42 =
      (⟨42, GState.Suspended, true, true, []⟩, false) ∧
    (Pthread.yield ⟨7, GState.Suspended, false, true, []⟩ 42).1.yielded_value ≠
      (7 : Int) := by
  refine ⟨by decide, rfl, by decide⟩

/-- Claim C3: the Finished state is absorbing in both backends — once
`state == GEN_FINISHED`, `generator_next` returns the last known
yielded_value with finished == true and changes nothing (in particular no
pending user code runs), for every subsequent call. -/
theorem c3_finished_state_is_absorbing (g : Stackful.Gen) (p : Pthread.PGen)
    (hg : g.state = GState.Finished) (hp : p.state = GState.Finished) :
    Stackful.generator_next g = (g, g.yielded_value, true) ∧
    Pthread.generator_next p = (p, p.yielded_value, true) ∧
    (∀ n : Nat, Stackful.stepGen^[n] g = g) ∧
    (∀ n : Nat, Pthread.stepGen^[n] p = p) := by
  refine ⟨stackful_next_finished g hg,
    pthread_next_finished p hp, ?_, ?_⟩
  · intro n
    refine Function.iterate_fixed ?_ n
    show (Stackful.generator_next g).1 = g
    rw [stackful_next_finished g hg]
  · intro n
    refine Function.iterate_fixed ?_ n
    show (Pthread.generator_next p).1 = p
    rw [pthread_next_finished p hp]

/-- Witness for C3 at concrete finished generators. -/
theorem c3_finished_state_is_absorbing_witness :
    Stackful.generator_next ⟨3, GState.Finished, []⟩ =
      (⟨3, GState.Finished, []⟩, 3, true) ∧
    Pthread.stepGen^[5] ⟨4, GState.Finished, true, true, []⟩ =
      ⟨4, GState.Finished, true, true, []⟩ :=
  ⟨(c3_finished_state_is_absorbing ⟨3, GState.Finished, []⟩
      ⟨4, GState.Finished, true, true, []⟩ rfl rfl).1,
   (c3_finished_state_is_absorbing ⟨3, GState.Finished, []⟩
      ⟨4, GState.Finished, true, true, []⟩ rfl rfl).2.2.2 5⟩

/-- Claim C4: for every binary tree, driving the in-order generator
(`bst_inorder_recursive_generator`, in either backend) to completion with
repeated `generator_next` calls produces exactly the key sequence of a
direct, non-generator recursive in-order traversal of the tree. -/
theorem c4_generator_traversal_equals_direct (t : Tree) (n : Nat)
    (h : (Bst.bst_inorder_recursive_generator t).length ≤ n) :
    yieldedSeq (Stackful.runNexts
        (Stackful.mkGen (Bst.bst_inorder_recursive_generator t)) n) =
      inorderDirect t ∧
    yieldedSeq (Pthread.runNexts
        (Pthread.mkGen (BstPthread.bst_inorder_recursive_generator t)) n) =
      inorderDirect t := by
  have hlen : (inorderDirect t).length ≤ n := by
    simpa [Bst.bst_inorder_recursive_generator,
      bst_helper_eq_inorderDirect] using h
  constructor
  · have h1 := stackful_yieldedSeq_runNexts n
      (Stackful.mkGen (Bst.bst_inorder_recursive_generator t))
      (by simp [Stackful.mkGen])
    rw [h1]
    simp [Stackful.mkGen, Bst.bst_inorder_recursive_generator,
      bst_helper_eq_inorderDirect, List.take_of_length_le hlen]
  · have h2 := pthread_yieldedSeq_runNexts n
      (Pthread.mkGen (BstPthread.bst_inorder_recursive_generator t))
      (by simp [Pthread.mkGen])
    rw [h2]
    simp [Pthread.mkGen, BstPthread.bst_inorder_recursive_generator,
      bstPthread_helper_eq_inorderDirect, List.take_of_length_le hlen]

/-- Witness for C4 at the demo tree, driven with exactly enough
`generator_next` calls. -/
theorem c4_generator_traversal_equals_direct_witness :
    (Bst.bst_inorder_recursive_generator validTree).length ≤ 4 ∧
    (yieldedSeq (Stackful.runNexts
        (Stackful.mkGen (Bst.bst_inorder_recursive_generator validTree)) 4) =
      inorderDirect validTree ∧
    yieldedSeq (Pthread.runNexts
        (Pthread.mkGen (BstPthread.bst_inorder_recursive_generator validTree))
        4) =
      inorderDirect validTree) :=
  ⟨by decide, c4_generator_traversal_equals_direct validTree 4 (by decide)⟩

/-- Claim C5: a tree is a valid BST iff its in-order key sequence is strictly
increasing; for the invalid demo tree the in-order sequence is 30,60,50,70
and `check_bst_property` returns false, failing exactly at the adjacent pair
(60, 50), while for the valid demo tree the sequence is 30,40,50,70 and the
check returns true. -/
theorem c5_bst_iff_inorder_strictly_increasing :
    (∀ t : Tree, isBST t = true ↔ List.Chain' (· < ·) (inorderDirect t)) ∧
    inorderDirect invalidTree = [30, 60, 50, 70] ∧
    check_bst_run invalidTree = (false, some (60, 50)) ∧
    check_bst_property invalidTree = false ∧
    inorderDirect validTree = [30, 40, 50, 70] ∧
    check_bst_run validTree = (true, none) ∧
    check_bst_property validTree = true := by
  refine ⟨?_, by decide, by decide, by decide, by decide, by decide, by decide⟩
  intro t
  rw [isBST_iff_pairwise, List.chain'_iff_pairwise]

/-- Claim C6, the race at the failing input: when `generator_destroy` runs to
completion before the newly spawned worker thread has executed a single
instruction, destroy sees `started == false`, skips the join, and frees the
generator; after destroy has returned, the worker thread is still schedulable
(it has not exited), and its very next step locks the freed mutex — a
use-after-free, contradicting "leaves no schedulable worker thread behind and
releases all resources safely". -/
theorem c6_destroy_before_start_leaves_schedulable_worker :
    (DestroyRace.exec DestroyRace.init DestroyRace.badSchedule).mLoc =
        DestroyRace.MLoc.mDone ∧
    (DestroyRace.exec DestroyRace.init DestroyRace.badSchedule).allocated =
        false ∧
    (DestroyRace.exec DestroyRace.init DestroyRace.badSchedule).wLoc =
        DestroyRace.WLoc.wStart ∧
    DestroyRace.WLoc.wStart ≠ DestroyRace.WLoc.wExited ∧
    (DestroyRace.exec DestroyRace.init DestroyRace.badSchedule).fault =
        false ∧
    (DestroyRace.step (DestroyRace.exec DestroyRace.init DestroyRace.badSchedule)
        DestroyRace.Tid.worker).fault = true := by
  decide

/-- Claim C7 (amended): for the stackful backend, `generator_destroy` is safe
to call on a live generator regardless of its state — it never consults the
state and frees the stack and the record — and is a no-op on a null handle;
but it is not idempotent on the same non-null handle: a second call frees
already-freed memory. -/
theorem c7_destroy_state_independent_null_noop :
    (∀ (g : Stackful.Gen) (f : Bool),
      Destroy.generator_destroy false ⟨g, true, true, f⟩ =
        ⟨g, false, false, f⟩) ∧
    (∀ m : Destroy.Mem, Destroy.generator_destroy true m = m) := by
  constructor
  · intro g f
    rfl
  · intro m
    rfl

/-- Claim C7, counterexample to the claim as stated: after one destroy of a
live generator, a second destroy on the same (now dangling) handle is not
"no further effect" — it frees already-freed memory, undefined behaviour. -/
theorem c7_counterexample_second_destroy_double_frees :
    Destroy.generator_destroy false
        ⟨⟨0, GState.Suspended, []⟩, true, true, false⟩ =
      ⟨⟨0, GState.Suspended, []⟩, false, false, false⟩ ∧
    Destroy.generator_destroy false
        ⟨⟨0, GState.Suspended, []⟩, false, false, false⟩ ≠
      ⟨⟨0, GState.Suspended, []⟩, false, false, false⟩ ∧
    (Destroy.generator_destroy false
        ⟨⟨0, GState.Suspended, []⟩, false, false, false⟩).fault = true := by
  refine ⟨rfl, by decide, rfl⟩

/-- Claim C8: the Fibonacci producer seeded with (1,1) yields exactly
1,1,2,3,5,8,13,21,34,55 over the first 10 `generator_next` calls (each with
finished == false, and each value from the third on the sum of the previous
two), and the 11th call reports finished == true. -/
theorem c8_fib_first_ten_values_then_finished :
    fib_generator_func = [1, 1, 2, 3, 5, 8, 13, 21, 34, 55] ∧
    Pthread.runNexts (Pthread.mkGen fib_generator_func) 11 =
      [(1, false), (1, false), (2, false), (3, false), (5, false), (8, false),
       (13, false), (21, false), (34, false), (55, false), (55, true)] ∧
    ((List.range 8).all fun i =>
      fib_generator_func.getD (i + 2) 0 ==
        fib_generator_func.getD (i + 1) 0 + fib_generator_func.getD i 0) =
      true := by
  refine ⟨by decide, by decide, by decide⟩

/-- Claim C9 (amended): stackful `generator_create` substitutes the 16 KB
default for `stack_size == 0` and allocates exactly `stack_size` bytes for
every positive size; creation is refused only for a missing function.  No
size is rejected as absurd: the parameter is unsigned (so no negative value
exists at the interface) and any positive value, however large, is passed on
to allocation unchecked. -/
theorem c9_create_stack_sizing :
    generator_create_stackSize true 0 = some DEFAULT_STACK_SIZE ∧
    DEFAULT_STACK_SIZE = 16 * 1024 ∧
    (∀ s : Nat, 0 < s → generator_create_stackSize true s = some s) ∧
    (∀ s : Nat, generator_create_stackSize false s = none) := by
  refine ⟨rfl, rfl, ?_, fun s => rfl⟩
  intro s hs
  simp [generator_create_stackSize, hs]

/-- Witness for C9's amended theorem at a concrete positive size. -/
theorem c9_create_stack_sizing_witness :
    generator_create_stackSize true 3 = some 3 :=
  c9_create_stack_sizing.2.2.1 3 (by decide)

/-- Claim C9, counterexample to the claim as stated: the absurd size
`SIZE_MAX` (what a caller passing -1 would supply) is not rejected as a
configuration error — creation proceeds and uses it verbatim. -/
theorem c9_counterexample_absurd_size_used :
    generator_create_stackSize true (2 ^ 64 - 1) = some (2 ^ 64 - 1) ∧
    generator_create_stackSize true (2 ^ 64 - 1) ≠ none := by
  refine ⟨rfl, by simp [generator_create_stackSize]⟩

/-- Claim C10: in both backends, `generator_next` on a null generator handle
is safe and total: it returns 0, writes true through the done pointer exactly
when that pointer is non-null, and modifies no state. -/
theorem c10_null_handle_next_safe (donePtr : Bool) :
    Stackful.generator_next_c none donePtr =
      (none, 0, if donePtr then some true else none) ∧
    Pthread.generator_next_c none donePtr =
      (none, 0, if donePtr then some true else none) := by
  cases donePtr <;> exact ⟨rfl, rfl⟩

end CYield
